import Mathlib

/-
Verification of the pheniqs-build-api package build orchestrator
(src/pheniqs-build-api.py) against its natural-language specification.

The development shallowly embeds the parts of the program the claims are
about:

* the canonical descriptor digest (Package.__init__, lines 605-615),
* the mirror-fallback download with checksum verification
  (Package.download, lines 738-792),
* the package lifecycle state machine over the four stage flags
  (Package.clean_package / clean / unpack / configure / build / install,
  lines 794-862, and the Make subclass, lines 911-1050), driven by the
  orchestrator actions build / clean / clean.package
  (PackageManager.execute, lines 1410-1432),
* the permission-aware ancestor walk (prepare_path / prepare_directory,
  lines 392-439),
* the top-level key sets governing the cache load/save guards
  (PackageManager.load_cache / save_cache, lines 1271-1291).

External effects (process exit codes, filesystem contents, network fetch
results) are supplied by explicit environment records; every external
command issued is recorded in a trace.  SHA-1 is modelled as a
collision-free digest function of its input (its argument string stands
for the digest), which is exactly the property the program relies on.
-/

/-- JSON-like values appearing in a package descriptor node. -/
inductive JVal where
  | null : JVal
  | bool (b : Bool) : JVal
  | str (s : String) : JVal
  | arr (xs : List String) : JVal
deriving DecidableEq, Repr

/-- A descriptor node as the Python dict holds it: an insertion-ordered
association list with (in well-formed nodes) pairwise-distinct keys. -/
abbrev Node := List (String × JVal)

/-- Dictionary lookup, first binding wins (Python dict semantics with
distinct keys). -/
def lookupKey (k : String) : Node → Option JVal
  | [] => none
  | (k', v) :: rest => if k' = k then some v else lookupKey k rest

/-- Dictionary assignment node[k] = v: replaces the binding in place,
appending when the key is absent (Python dict assignment). -/
def assignKey : Node → String → JVal → Node
  | [], k, v => [(k, v)]
  | (k', v') :: rest, k, v =>
    if k' = k then (k, v) :: rest else (k', v') :: assignKey rest k v

/-- Key order used by json.dumps(node, sort_keys=True): compare the keys. -/
def keyLE (p q : String × JVal) : Prop := p.1 ≤ q.1

instance : DecidableRel keyLE := fun p q => inferInstanceAs (Decidable (p.1 ≤ q.1))

instance : IsTotal (String × JVal) keyLE := ⟨fun p q => le_total p.1 q.1⟩

instance : IsTrans (String × JVal) keyLE := ⟨fun _ _ _ h1 h2 => le_trans h1 h2⟩

/-- Strict key order, used to show the canonical form is unique. -/
def keyLT (p q : String × JVal) : Prop := p.1 < q.1

instance : IsAntisymm (String × JVal) keyLT :=
  ⟨fun _ _ h1 h2 => absurd (lt_trans h1 h2) (lt_irrefl _)⟩

/-- Package.__init__ line 605-606: the document digest is
hashlib.sha1(json.dumps(node, sort_keys=True, ensure_ascii=False)).hexdigest().
SHA-1 composed with the canonical key-sorted serialization is modelled as
the canonical key-sorted association list itself (a collision-free digest
of the same information). -/
def document_sha1_digest (node : Node) : Node :=
  List.insertionSort keyLE node

/-- The four per-digest stage completion flags of a progress record. -/
structure Flags where
  unpacked : Bool
  configured : Bool
  built : Bool
  installed : Bool
deriving DecidableEq, Repr

/-- Package.__init__ lines 608-615: when the digest is not yet a key of the
persisted package section, a fresh all-false progress record is created;
otherwise the persisted record is adopted. -/
def registerProgress (persisted : Node → Option Flags) (n : Node) : Flags :=
  match persisted (document_sha1_digest n) with
  | some f => f
  | none => { unpacked := false, configured := false, built := false, installed := false }

/- ---------------------------------------------------------------------
Download (Package.download, lines 738-792).
--------------------------------------------------------------------- -/

/-- What fetching one mirror URL yields: one of the three caught fetch
exceptions (BadStatusLine, HTTPError, URLError) or a payload. -/
inductive FetchOutcome where
  | badStatus : FetchOutcome
  | httpError (code : Nat) : FetchOutcome
  | urlError (reason : String) : FetchOutcome
  | ok (content : String) : FetchOutcome
deriving DecidableEq, Repr

/-- The non-fatal per-mirror error values kept in the local variable
error (lines 769, 772, 775, 781); the last one is carried by
DownloadError on exhaustion. -/
inductive DLErr where
  | badStatusLine (url : String) : DLErr
  | protocolError (url : String) (code : Nat) : DLErr
  | transportError (url : String) (reason : String) : DLErr
  | checksumMismatch (computed : String) (declared : String) : DLErr
deriving DecidableEq, Repr

/-- hashlib.sha1(content).hexdigest(), modelled as a collision-free digest
function: the content string stands for its own digest. -/
def sha1_hexdigest (content : String) : String := content

/-- A mirror (url paired with its fetch outcome) is rejected when it raises
one of the three caught exceptions or when a declared checksum mismatches
the digest of the payload (lines 766-782). -/
def mirrorRejects (sha1 : Option String) (m : String × FetchOutcome) : Bool :=
  match m.2 with
  | .ok c =>
    match sha1 with
    | some s => decide (¬ sha1_hexdigest c = s)
    | none => false
  | _ => true

/-- The error value a rejected mirror leaves in the error variable. -/
def mirrorError (sha1 : Option String) (m : String × FetchOutcome) : DLErr :=
  match m.2 with
  | .badStatus => .badStatusLine m.1
  | .httpError code => .protocolError m.1 code
  | .urlError reason => .transportError m.1 reason
  | .ok c =>
    match sha1 with
    | some s => .checksumMismatch (sha1_hexdigest c) s
    | none => .checksumMismatch (sha1_hexdigest c) ""

/-- Result of the mirror loop (lines 761-789): the first verified payload
together with how many mirrors were fetched, or exhaustion carrying the
last error value (None when the loop body never ran). -/
inductive LoopResult where
  | success (content : String) (tried : Nat) : LoopResult
  | exhausted (lastError : Option DLErr) : LoopResult
deriving DecidableEq, Repr

/-- Account for one more fetched mirror in a loop result. -/
def bumpTried : LoopResult → LoopResult
  | .success c n => .success c (n + 1)
  | .exhausted e => .exhausted e

/-- The for-url loop of Package.download, lines 761-789: fetch mirrors in
declared order; a caught exception or a checksum mismatch updates the error
variable and advances; a verified payload breaks with success. -/
def downloadLoop (sha1 : Option String) : List (String × FetchOutcome) → Option DLErr → LoopResult
  | [], err => .exhausted err
  | m :: rest, _ =>
    match m.2 with
    | .badStatus => bumpTried (downloadLoop sha1 rest (some (DLErr.badStatusLine m.1)))
    | .httpError code => bumpTried (downloadLoop sha1 rest (some (DLErr.protocolError m.1 code)))
    | .urlError reason => bumpTried (downloadLoop sha1 rest (some (DLErr.transportError m.1 reason)))
    | .ok c =>
      match sha1 with
      | some s =>
        if sha1_hexdigest c = s then LoopResult.success c 1
        else bumpTried (downloadLoop sha1 rest (some (DLErr.checksumMismatch (sha1_hexdigest c) s)))
      | none => LoopResult.success c 1

/-- Lines 741-753: handling of a pre-existing local archive.  With no
declared checksum an existing file is removed; with a declared checksum a
mismatching file is removed and a matching one short-circuits.  Returns the
surviving content (the content variable when not None). -/
def precheck (sha1 : Option String) (localFile : Option String) : Option String :=
  match sha1, localFile with
  | none, _ => none
  | some _, none => none
  | some s, some c => if sha1_hexdigest c = s then some c else none

/-- Observable result of Package.download: the archive finally at the
download path, the payloads written, the number of network fetches, and the
DownloadError raised (carrying the last error value), if any. -/
structure DownloadResult where
  localFile : Option String
  written : List String
  fetched : Nat
  raised : Option (Option DLErr)
deriving DecidableEq, Repr

/-- Package.download, lines 738-792 (the download url is declared when this
runs; line 739 guards the whole body). -/
def download (sha1 : Option String) (localFile : Option String)
    (mirrors : List (String × FetchOutcome)) : DownloadResult :=
  match precheck sha1 localFile with
  | some c => { localFile := some c, written := [], fetched := 0, raised := none }
  | none =>
    match downloadLoop sha1 mirrors none with
    | .success c n => { localFile := some c, written := [c], fetched := n, raised := none }
    | .exhausted e =>
      { localFile := none, written := [], fetched := mirrors.length, raised := some e }

/- ---------------------------------------------------------------------
Lifecycle state machine (Package / Make methods and the orchestrator).
--------------------------------------------------------------------- -/

/-- External commands and network requests issued by the lifecycle, in the
order they run. -/
inductive Cmd where
  | rmrf : Cmd
  | fetch : Cmd
  | extract : Cmd
  | configureRun : Cmd
  | makeBuildRun : Cmd
  | makeInstallRun : Cmd
  | makeCleanRun : Cmd
  | rsyncRun : Cmd
deriving DecidableEq, Repr

/-- Archive compression kind dispatched on in Package.unpack
(lines 815-828): gz and bz2 choose tar, zip chooses unzip, anything else
leaves the command list empty (which makes Popen raise). -/
inductive Compression where
  | gz : Compression
  | bz2 : Compression
  | zip : Compression
  | other : Compression
deriving DecidableEq, Repr

/-- The descriptor facts the lifecycle branches on.  downloadUrl and
packageUrl record whether the corresponding derived field is not None;
both are fixed by the digest. -/
structure Desc where
  downloadUrl : Bool
  packageUrl : Bool
  sha1 : Option String
  compression : Compression
  makeCleanTarget : Bool
deriving DecidableEq, Repr

/-- The external world one action runs against: exit statuses of the
commands, presence of files the code tests, the archive at the download
path and the mirror fetch outcomes. -/
structure Env where
  pkgDirExists : Bool
  rmOk : Bool
  extractOk : Bool
  configureScript : Bool
  configureOk : Bool
  makeBuildOk : Bool
  makeInstallOk : Bool
  makefileExists : Bool
  makeCleanOk : Bool
  rsyncOk : Bool
  localFile : Option String
  mirrors : List (String × FetchOutcome)
deriving DecidableEq, Repr

/-- Result of one lifecycle method: the flags after it returns or raises,
the external commands it issued, and whether it completed without raising.
A raise leaves the in-place mutations performed so far. -/
structure Outcome where
  flags : Flags
  trace : List Cmd
  ok : Bool
deriving DecidableEq, Repr

/-- A method that returns immediately, touching nothing. -/
def noopOutcome (st : Flags) : Outcome := { flags := st, trace := [], ok := true }

/-- Sequence a second step after a first one, propagating a raise. -/
def Outcome.andThen (o : Outcome) (f : Flags → Outcome) : Outcome :=
  if o.ok then
    { flags := (f o.flags).flags, trace := o.trace ++ (f o.flags).trace, ok := (f o.flags).ok }
  else o

/-- Package.clean_package, lines 794-800: when the download url is declared,
remove the package directory (remove_directory runs rm -rf only when the
directory exists and raises on a non-zero exit, lines 376-390) and then
reset all four flags.  os.path.exists(None) raises when the package url is
None.  With no download url the method does nothing. -/
def cleanPackage (d : Desc) (env : Env) (st : Flags) : Outcome :=
  if d.downloadUrl then
    if d.packageUrl then
      if env.pkgDirExists then
        if env.rmOk then
          { flags := ⟨false, false, false, false⟩, trace := [Cmd.rmrf], ok := true }
        else { flags := st, trace := [Cmd.rmrf], ok := false }
      else { flags := ⟨false, false, false, false⟩, trace := [], ok := true }
    else { flags := st, trace := [], ok := false }
  else noopOutcome st

/-- Package.unpack, lines 807-847: a no-op when already unpacked; otherwise
clean_package, then (when the download url is declared) download and run
the extraction command, setting unpacked only on a zero exit. -/
def unpack (d : Desc) (env : Env) (st : Flags) : Outcome :=
  if st.unpacked then noopOutcome st
  else
    let o1 := cleanPackage d env st
    if o1.ok then
      if d.downloadUrl then
        let r := download d.sha1 env.localFile env.mirrors
        let ft := List.replicate r.fetched Cmd.fetch
        match r.raised with
        | some _ => { flags := o1.flags, trace := o1.trace ++ ft, ok := false }
        | none =>
          match d.compression with
          | .other => { flags := o1.flags, trace := o1.trace ++ ft, ok := false }
          | _ =>
            if env.extractOk then
              { flags := { o1.flags with unpacked := true },
                trace := o1.trace ++ ft ++ [Cmd.extract], ok := true }
            else
              { flags := o1.flags, trace := o1.trace ++ ft ++ [Cmd.extract], ok := false }
      else o1
    else o1

/-- Package.configure, lines 849-852 (inherited by RapidJSON): guarantee
unpack, then set the flag; no external command of its own. -/
def pkgConfigure (d : Desc) (env : Env) (st : Flags) : Outcome :=
  if st.configured then noopOutcome st
  else
    (unpack d env st).andThen fun f =>
      { flags := { f with configured := true }, trace := [], ok := true }

/-- Package.build, lines 854-857 (inherited by RapidJSON). -/
def pkgBuild (d : Desc) (env : Env) (st : Flags) : Outcome :=
  if st.built then noopOutcome st
  else
    (pkgConfigure d env st).andThen fun f =>
      { flags := { f with built := true }, trace := [], ok := true }

/-- RapidJSON.install, lines 1205-1228: guarantee build, then (when the
package url is declared) rsync the headers and set installed on a zero
exit. -/
def rapidjsonInstall (d : Desc) (env : Env) (st : Flags) : Outcome :=
  if st.installed then noopOutcome st
  else
    (pkgBuild d env st).andThen fun f =>
      if d.packageUrl then
        if env.rsyncOk then
          { flags := { f with installed := true }, trace := [Cmd.rsyncRun], ok := true }
        else { flags := f, trace := [Cmd.rsyncRun], ok := false }
      else noopOutcome f

/-- Package.clean, lines 802-805 (inherited by RapidJSON): reset the three
upper flags, keep unpacked. -/
def pkgClean (st : Flags) : Outcome :=
  { flags := { st with configured := false, built := false, installed := false },
    trace := [], ok := true }

/-- Make.configure, lines 947-979: when the package url is declared,
guarantee unpack, then run ./configure if a configure script exists
(setting the flag only on a zero exit) and otherwise set the flag without
running anything; with no package url the method does nothing. -/
def makeConfigure (d : Desc) (env : Env) (st : Flags) : Outcome :=
  if st.configured then noopOutcome st
  else
    if d.packageUrl then
      (unpack d env st).andThen fun f =>
        if env.configureScript then
          if env.configureOk then
            { flags := { f with configured := true }, trace := [Cmd.configureRun], ok := true }
          else { flags := f, trace := [Cmd.configureRun], ok := false }
        else { flags := { f with configured := true }, trace := [], ok := true }
    else noopOutcome st

/-- Make.build, lines 981-1016: guarantee configure, then (when the package
url is declared) run make, setting built only on a zero exit. -/
def makeBuild (d : Desc) (env : Env) (st : Flags) : Outcome :=
  if st.built then noopOutcome st
  else
    (makeConfigure d env st).andThen fun f =>
      if d.packageUrl then
        if env.makeBuildOk then
          { flags := { f with built := true }, trace := [Cmd.makeBuildRun], ok := true }
        else { flags := f, trace := [Cmd.makeBuildRun], ok := false }
      else noopOutcome f

/-- Make.install, lines 1018-1050: guarantee build, then (when the package
url is declared) run make install, setting installed only on a zero exit. -/
def makeInstall (d : Desc) (env : Env) (st : Flags) : Outcome :=
  if st.installed then noopOutcome st
  else
    (makeBuild d env st).andThen fun f =>
      if d.packageUrl then
        if env.makeInstallOk then
          { flags := { f with installed := true }, trace := [Cmd.makeInstallRun], ok := true }
        else { flags := f, trace := [Cmd.makeInstallRun], ok := false }
      else noopOutcome f

/-- Make.clean, lines 911-945: when the package url is declared, run the
clean target if a Makefile exists and a clean target is configured
(resetting the three upper flags only on a zero exit), else reset them
without running anything; with no package url the method does nothing. -/
def makeCleanOp (d : Desc) (env : Env) (st : Flags) : Outcome :=
  if d.packageUrl then
    if env.makefileExists && d.makeCleanTarget then
      if env.makeCleanOk then
        { flags := { st with configured := false, built := false, installed := false },
          trace := [Cmd.makeCleanRun], ok := true }
      else { flags := st, trace := [Cmd.makeCleanRun], ok := false }
    else
      { flags := { st with configured := false, built := false, installed := false },
        trace := [], ok := true }
  else noopOutcome st

/-- The lifecycle implementation selected for a descriptor: the base
Package methods with the RapidJSON install, or the Make methods. -/
inductive Variant where
  | rapidjson : Variant
  | make : Variant
deriving DecidableEq, Repr

/-- The orchestrator action requested for the run. -/
inductive BuildAction where
  | build : BuildAction
  | clean : BuildAction
  | cleanPkg : BuildAction
deriving DecidableEq, Repr

/-- PackageManager.execute, lines 1418-1430: dispatch one action on one
package; build invokes install only when not already installed. -/
def runAction (v : Variant) (a : BuildAction) (d : Desc) (env : Env) (st : Flags) : Outcome :=
  match a with
  | .clean =>
    match v with
    | .rapidjson => pkgClean st
    | .make => makeCleanOp d env st
  | .build =>
    if st.installed then noopOutcome st
    else
      match v with
      | .rapidjson => rapidjsonInstall d env st
      | .make => makeInstall d env st
  | .cleanPkg => cleanPackage d env st

/-- Flag states reachable from the fresh all-false record under any
sequence of orchestrator actions against any environments. -/
inductive Reachable (v : Variant) (d : Desc) : Flags → Prop
  | init : Reachable v d ⟨false, false, false, false⟩
  | step {st : Flags} (h : Reachable v d st) (a : BuildAction) (env : Env) :
      Reachable v d (runAction v a d env st).flags

/-- The stage-flag invariant of the spec: installed implies built implies
configured implies unpacked. -/
def orderedFlags (st : Flags) : Bool :=
  (!st.installed || st.built) && (!st.built || st.configured) && (!st.configured || st.unpacked)

/-- Package.clean as it acts on the persisted node document
(lines 802-805): assign False to exactly the three upper flag keys. -/
def nodeClean (node : Node) : Node :=
  assignKey (assignKey (assignKey node "configured" (JVal.bool false))
    "built" (JVal.bool false)) "installed" (JVal.bool false)

/- ---------------------------------------------------------------------
Cache persistence guards (PackageManager, lines 1236-1299 and 1325-1399).
--------------------------------------------------------------------- -/

/-- Key-set union produced by merge (lines 350-374) on two dicts. -/
def mergeKeys (this other : List String) : List String :=
  this.filter (fun k => !other.contains k) ++ other

/-- Top-level keys of the default ontology in PackageManager.__init__
(lines 1243-1249). -/
def packageManagerDefaultKeys : List String := ["instruction"]

/-- Top-level keys of CommandLineParser.configuration (lines 453-463 merged
with the interface configuration, minus the interface key deleted at line
529): name, instruction and the three static sections. -/
def commandConfigurationKeys : List String :=
  ["name", "instruction", "package implementation", "pheniqs code url prefix", "preset"]

/-- Top-level keys of self.ontology in PackageManager: merge of the default
with the parser configuration (line 1250); execute only ever reassigns the
instruction entry (line 1394). -/
def ontologyTopLevelKeys : List String :=
  mergeKeys packageManagerDefaultKeys commandConfigurationKeys

/-- Keys present in self.instruction after execute resolved the preset
(lines 1243-1247 defaults, lines 1358-1380 preset normalization merged in
at line 1394, plus the parsed action). -/
def instructionKeysAfterExecute : List String :=
  ["action", "preset", "home", "platform", "current working directoy", "package",
   "cache path", "install prefix", "download prefix", "package prefix",
   "bin prefix", "include prefix", "lib prefix", "document sha1 digest"]

/-- Guard of PackageManager.load_cache, line 1272: the cache is read only
when cache path is a key of self.instruction. -/
def load_cache_reads (instructionKeys : List String) : Bool :=
  instructionKeys.contains "cache path"

/-- Guard of PackageManager.save_cache, line 1286: the cache file is
written only when cache path is a key of self.ontology (the top level, not
the instruction sub-dict). -/
def save_cache_writes (ontologyKeys : List String) : Bool :=
  ontologyKeys.contains "cache path"

/- ---------------------------------------------------------------------
Permission-aware directory preparation (lines 392-439).
--------------------------------------------------------------------- -/

/-- The filesystem facts the ancestor walk queries.  A path is its list of
components with the deepest component first, so os.path.dirname is tail
and the root is the empty list. -/
structure FS where
  present : List String → Bool
  writable : List String → Bool

/-- The failures of the preparation helpers.  permissionDenied and
noOverwrite are the raise sites at lines 408/434 and 412; recursionOverflow
models the unbounded self-recursion of check_permission when the root
directory itself is reported neither present nor writable (dirname of the
root is the root). -/
inductive PrepError where
  | permissionDenied : PrepError
  | noOverwrite : PrepError
  | recursionOverflow : PrepError
deriving DecidableEq, Repr

/-- The nested check_permission of prepare_directory (lines 420-434): walk
the ancestor chain of the directory; return the first ancestor that exists and
is writable; raise when an ancestor exists but is not writable; fall
through to None when an ancestor is writable but not present.  The same
walk serves prepare_path (lines 393-408), started at the parent of the file. -/
def checkPermissionDir (fs : FS) : List String → Except PrepError (Option (List String))
  | [] =>
    if fs.writable [] && fs.present [] then .ok (some [])
    else if !(fs.writable [] || fs.present []) then .error .recursionOverflow
    else if fs.present [] && !fs.writable [] then .error .permissionDenied
    else .ok none
  | c :: parent =>
    if fs.writable (c :: parent) && fs.present (c :: parent) then .ok (some (c :: parent))
    else if !(fs.writable (c :: parent) || fs.present (c :: parent)) then
      checkPermissionDir fs parent
    else if fs.present (c :: parent) && !fs.writable (c :: parent) then .error .permissionDenied
    else .ok none

/-- prepare_path (lines 392-417): ancestor-walk from the parent of the file;
then raise NoOverwrite when the file exists and overwrite is false, and
otherwise create the parent chain when the parent is not the available
ancestor.  Returns whether directories were created. -/
def prepare_path (fs : FS) (p : List String) (overwrite : Bool) : Except PrepError Bool :=
  match checkPermissionDir fs p.tail with
  | .error e => .error e
  | .ok avail =>
    if fs.present p then
      if !overwrite then .error .noOverwrite else .ok false
    else .ok (decide (¬ some p.tail = avail))

/-- prepare_directory (lines 419-439): ancestor-walk from the directory
itself; create the chain when the directory is not already the available
ancestor. -/
def prepare_directory (fs : FS) (d : List String) : Except PrepError Bool :=
  match checkPermissionDir fs d with
  | .error e => .error e
  | .ok avail => .ok (decide (¬ avail = some d))

/-- The nearest ancestor (including the directory itself) that exists. -/
def nearestPresent (fs : FS) : List String → Option (List String)
  | [] => if fs.present [] then some [] else none
  | c :: parent => if fs.present (c :: parent) then some (c :: parent) else nearestPresent fs parent

/-- The exception classes the module defines (lines 444-450).  The raise
sites of prepare_path and prepare_directory name PermissionDeniedError and
NoOverwriteError, neither of which is among them. -/
def definedExceptionClasses : List String := ["DownloadError", "CommandFailedError"]

/-- A descriptor with no declared remote url: every derived url field stays
None (Package.__init__, lines 560-603), as produced by a plan file entry
that only names the package. -/
def d0 : Desc :=
  { downloadUrl := false, packageUrl := false, sha1 := none,
    compression := Compression.gz, makeCleanTarget := true }

/-- A benign environment for concrete runs. -/
def env0 : Env :=
  { pkgDirExists := false, rmOk := true, extractOk := true, configureScript := false,
    configureOk := true, makeBuildOk := true, makeInstallOk := true, makefileExists := false,
    makeCleanOk := true, rsyncOk := true, localFile := none, mirrors := [] }

/-- A descriptor with remote url, checksum and package directory declared,
as the built-in presets produce. -/
def d1 : Desc :=
  { downloadUrl := true, packageUrl := true, sha1 := none,
    compression := Compression.gz, makeCleanTarget := true }

/-- An environment whose single mirror serves a payload. -/
def env1 : Env :=
  { pkgDirExists := false, rmOk := true, extractOk := true, configureScript := false,
    configureOk := true, makeBuildOk := true, makeInstallOk := true, makefileExists := false,
    makeCleanOk := true, rsyncOk := true, localFile := none,
    mirrors := [("mirror", FetchOutcome.ok "payload")] }

/-- A descriptor with no remote url but an explicitly declared path in
archive, so the package url is derived while the download url stays None
(Package.__init__, lines 560-591). -/
def d2 : Desc :=
  { downloadUrl := false, packageUrl := true, sha1 := none,
    compression := Compression.gz, makeCleanTarget := true }

/-- An environment in which the extracted package directory exists. -/
def env2 : Env :=
  { pkgDirExists := true, rmOk := true, extractOk := true, configureScript := false,
    configureOk := true, makeBuildOk := true, makeInstallOk := true, makefileExists := false,
    makeCleanOk := true, rsyncOk := true, localFile := none, mirrors := [] }

/-- Two descriptor nodes with the same bindings in different key order. -/
def nodeA : Node := [("name", JVal.str "zlib"), ("sha1", JVal.str "aaa")]

/-- The same bindings as nodeA, declared in the opposite order. -/
def nodeB : Node := [("sha1", JVal.str "aaa"), ("name", JVal.str "zlib")]

/-- A filesystem where the usr directory exists but is not writable. -/
def fsUnwritableUsr : FS :=
  { present := fun p => decide (p = [] ∨ p = ["usr"]), writable := fun _ => false }

/-- A filesystem with a writable home directory already holding the target
file. -/
def fsHomeFile : FS :=
  { present := fun p => decide (p = [] ∨ p = ["home"] ∨ p = ["archive", "home"]),
    writable := fun p => decide (p = [] ∨ p = ["home"]) }

/-- A filesystem where only the top directory of a deep path exists. -/
def fsDeepMissing : FS :=
  { present := fun p => decide (p = [] ∨ p = ["a"]),
    writable := fun p => decide (p = [] ∨ p = ["a"]) }

/- ---------------------------------------------------------------------
Helper lemmas: canonical digest.
--------------------------------------------------------------------- -/

theorem sorted_keyLT_of_nodup {l : Node} (hs : List.Sorted keyLE l)
    (hn : (l.map Prod.fst).Nodup) : List.Sorted keyLT l := by
  have hne : l.Pairwise (fun p q : String × JVal => p.1 ≠ q.1) := List.pairwise_map.mp hn
  exact (hs.and hne).imp fun h => lt_of_le_of_ne h.1 h.2

theorem nodup_keys_digest {n : Node} (hn : (n.map Prod.fst).Nodup) :
    ((document_sha1_digest n).map Prod.fst).Nodup :=
  ((List.perm_insertionSort keyLE n).map Prod.fst).nodup_iff.mpr hn

theorem digest_eq_of_perm {n₁ n₂ : Node} (h : n₁.Perm n₂) (hn : (n₁.map Prod.fst).Nodup) :
    document_sha1_digest n₁ = document_sha1_digest n₂ := by
  have hn₂ : (n₂.map Prod.fst).Nodup := ((h.map Prod.fst).nodup_iff).mp hn
  exact List.eq_of_perm_of_sorted
    ((List.perm_insertionSort keyLE n₁).trans (h.trans (List.perm_insertionSort keyLE n₂).symm))
    (sorted_keyLT_of_nodup (List.sorted_insertionSort keyLE n₁) (nodup_keys_digest hn))
    (sorted_keyLT_of_nodup (List.sorted_insertionSort keyLE n₂) (nodup_keys_digest hn₂))

theorem lookupKey_eq_of_perm {l₁ l₂ : Node} (h : l₁.Perm l₂)
    (hn : (l₁.map Prod.fst).Nodup) (k : String) : lookupKey k l₁ = lookupKey k l₂ := by
  induction h with
  | nil => rfl
  | cons p h ih =>
    obtain ⟨k', v⟩ := p
    by_cases hk : k' = k
    · simp [lookupKey, hk]
    · simp only [lookupKey, if_neg hk]
      exact ih (List.nodup_cons.mp hn).2 
  | swap x y l =>
    obtain ⟨kx, vx⟩ := x
    obtain ⟨ky, vy⟩ := y
    by_cases hky : ky = k <;> by_cases hkx : kx = k
    · exfalso
      have := List.nodup_cons.mp hn
      exact this.1 (by simp [hky, hkx.trans hky.symm])
    · simp [lookupKey, hky, hkx]
    · simp [lookupKey, hky, hkx]
    · simp [lookupKey, hky, hkx]
  | trans h₁ h₂ ih₁ ih₂ =>
    exact (ih₁ hn).trans (ih₂ (((h₁.map Prod.fst).nodup_iff).mp hn))

theorem lookupKey_digest {n : Node} (hn : (n.map Prod.fst).Nodup) (k : String) :
    lookupKey k (document_sha1_digest n) = lookupKey k n :=
  lookupKey_eq_of_perm (List.perm_insertionSort keyLE n) (nodup_keys_digest hn) k

theorem lookupKey_assignKey_self (l : Node) (k : String) (v : JVal) :
    lookupKey k (assignKey l k v) = some v := by
  induction l with
  | nil => simp [assignKey, lookupKey]
  | cons p rest ih =>
    obtain ⟨k', v'⟩ := p
    by_cases h : k' = k
    · simp [assignKey, lookupKey, h]
    · simp [assignKey, lookupKey, h, ih]

theorem lookupKey_assignKey_ne (l : Node) {k k' : String} (h : ¬ k' = k) (v : JVal) :
    lookupKey k' (assignKey l k v) = lookupKey k' l := by
  have h' : ¬ k = k' := fun hc => h hc.symm
  induction l with
  | nil => simp [assignKey, lookupKey, h']
  | cons p rest ih =>
    obtain ⟨k'', v''⟩ := p
    by_cases hk : k'' = k
    · have hk'' : ¬ k'' = k' := by rw [hk]; exact h'
      simp [assignKey, lookupKey, hk, hk'', h']
    · by_cases hk2 : k'' = k'
      · simp [assignKey, lookupKey, hk, hk2, h]
      · simp [assignKey, lookupKey, hk, hk2, ih]

theorem map_fst_assignKey {l : Node} {k : String} {v₀ : JVal}
    (h : lookupKey k l = some v₀) (v : JVal) :
    (assignKey l k v).map Prod.fst = l.map Prod.fst := by
  induction l with
  | nil => simp [lookupKey] at h
  | cons p rest ih =>
    obtain ⟨k', v'⟩ := p
    by_cases hk : k' = k
    · simp [assignKey, hk]
    · simp only [lookupKey, if_neg hk] at h
      simp [assignKey, hk, ih h]

/- ---------------------------------------------------------------------
Helper lemmas: download loop.
--------------------------------------------------------------------- -/

theorem downloadLoop_success_pos {sha1 : Option String}
    {mirrors : List (String × FetchOutcome)} {err : Option DLErr} {c : String} {n : Nat}
    (h : downloadLoop sha1 mirrors err = .success c n) : 1 ≤ n := by
  induction mirrors generalizing err with
  | nil => simp [downloadLoop] at h
  | cons m rest ih =>
    obtain ⟨url, f⟩ := m
    cases f with
    | badStatus =>
      simp only [downloadLoop] at h
      cases hr : downloadLoop sha1 rest (some (DLErr.badStatusLine url)) with
      | success c' n' => rw [hr] at h; cases h; omega
      | exhausted e => rw [hr] at h; simp [bumpTried] at h
    | httpError code =>
      simp only [downloadLoop] at h
      cases hr : downloadLoop sha1 rest (some (DLErr.protocolError url code)) with
      | success c' n' => rw [hr] at h; cases h; omega
      | exhausted e => rw [hr] at h; simp [bumpTried] at h
    | urlError reason =>
      simp only [downloadLoop] at h
      cases hr : downloadLoop sha1 rest (some (DLErr.transportError url reason)) with
      | success c' n' => rw [hr] at h; cases h; omega
      | exhausted e => rw [hr] at h; simp [bumpTried] at h
    | ok cc =>
      cases sha1 with
      | none => simp only [downloadLoop] at h; cases h; omega
      | some s =>
        by_cases hc : sha1_hexdigest cc = s
        · simp only [downloadLoop, if_pos hc] at h
          cases h; omega
        · simp only [downloadLoop, if_neg hc] at h
          cases hr : downloadLoop (some s) rest
              (some (DLErr.checksumMismatch (sha1_hexdigest cc) s)) with
          | success c' n' => rw [hr] at h; cases h; omega
          | exhausted e => rw [hr] at h; simp [bumpTried] at h

theorem downloadLoop_success_verified {mirrors : List (String × FetchOutcome)}
    {err : Option DLErr} {c s : String}
    (h : downloadLoop (some s) mirrors err = .success c n) : sha1_hexdigest c = s := by
  induction mirrors generalizing err n with
  | nil => simp [downloadLoop] at h
  | cons m rest ih =>
    obtain ⟨url, f⟩ := m
    cases f with
    | badStatus =>
      simp only [downloadLoop] at h
      cases hr : downloadLoop (some s) rest (some (DLErr.badStatusLine url)) with
      | success c' n' => rw [hr] at h; cases h; exact ih hr
      | exhausted e => rw [hr] at h; simp [bumpTried] at h
    | httpError code =>
      simp only [downloadLoop] at h
      cases hr : downloadLoop (some s) rest (some (DLErr.protocolError url code)) with
      | success c' n' => rw [hr] at h; cases h; exact ih hr
      | exhausted e => rw [hr] at h; simp [bumpTried] at h
    | urlError reason =>
      simp only [downloadLoop] at h
      cases hr : downloadLoop (some s) rest (some (DLErr.transportError url reason)) with
      | success c' n' => rw [hr] at h; cases h; exact ih hr
      | exhausted e => rw [hr] at h; simp [bumpTried] at h
    | ok cc =>
      by_cases hc : sha1_hexdigest cc = s
      · simp only [downloadLoop, if_pos hc] at h
        cases h; exact hc
      · simp only [downloadLoop, if_neg hc] at h
        cases hr : downloadLoop (some s) rest
            (some (DLErr.checksumMismatch (sha1_hexdigest cc) s)) with
        | success c' n' => rw [hr] at h; cases h; exact ih hr
        | exhausted e => rw [hr] at h; simp [bumpTried] at h

theorem downloadLoop_reject_cons {sha1 : Option String} {m : String × FetchOutcome}
    (rest : List (String × FetchOutcome)) (err : Option DLErr)
    (h : mirrorRejects sha1 m = true) :
    downloadLoop sha1 (m :: rest) err =
      bumpTried (downloadLoop sha1 rest (some (mirrorError sha1 m))) := by
  obtain ⟨url, f⟩ := m
  cases f with
  | badStatus => simp [downloadLoop, mirrorError]
  | httpError code => simp [downloadLoop, mirrorError]
  | urlError reason => simp [downloadLoop, mirrorError]
  | ok cc =>
    cases sha1 with
    | none => simp [mirrorRejects] at h
    | some s =>
      simp only [mirrorRejects, decide_eq_true_eq] at h
      simp [downloadLoop, mirrorError, h]

theorem downloadLoop_accept_cons {sha1 : Option String} {m : String × FetchOutcome}
    (rest : List (String × FetchOutcome)) (err : Option DLErr)
    (h : mirrorRejects sha1 m = false) :
    ∃ c, m.2 = FetchOutcome.ok c ∧ downloadLoop sha1 (m :: rest) err = .success c 1 := by
  obtain ⟨url, f⟩ := m
  cases f with
  | badStatus => simp [mirrorRejects] at h
  | httpError code => simp [mirrorRejects] at h
  | urlError reason => simp [mirrorRejects] at h
  | ok cc =>
    refine ⟨cc, rfl, ?_⟩
    cases sha1 with
    | none => simp [downloadLoop]
    | some s =>
      simp only [mirrorRejects, decide_eq_false_iff_not, not_not] at h
      simp [downloadLoop, h]

theorem downloadLoop_exhaust {sha1 : Option String} {mirrors : List (String × FetchOutcome)}
    {mlast : String × FetchOutcome}
    (h : ∀ m ∈ mirrors, mirrorRejects sha1 m = true)
    (hl : mirrors.getLast? = some mlast) :
    ∀ err, downloadLoop sha1 mirrors err = .exhausted (some (mirrorError sha1 mlast)) := by
  induction mirrors with
  | nil => simp at hl
  | cons m rest ih =>
    intro err
    have hm : mirrorRejects sha1 m = true := h m (List.mem_cons_self m rest)
    rw [downloadLoop_reject_cons rest err hm]
    cases rest with
    | nil =>
      simp at hl
      subst hl
      simp [downloadLoop, bumpTried]
    | cons r rs =>
      have hl' : (r :: rs).getLast? = some mlast := by
        rw [List.getLast?_cons_cons] at hl; exact hl
      rw [ih (fun m' hm' => h m' (List.mem_cons_of_mem m hm')) hl' (some (mirrorError sha1 m))]
      simp [bumpTried]

theorem downloadLoop_first_success {sha1 : Option String}
    {pre : List (String × FetchOutcome)} {m : String × FetchOutcome}
    (post : List (String × FetchOutcome))
    (hpre : ∀ m' ∈ pre, mirrorRejects sha1 m' = true)
    (hm : mirrorRejects sha1 m = false) :
    ∀ err, ∃ c, m.2 = FetchOutcome.ok c ∧
      downloadLoop sha1 (pre ++ m :: post) err = .success c (pre.length + 1) := by
  induction pre with
  | nil =>
    intro err
    simpa using downloadLoop_accept_cons post err hm
  | cons p pre' ih =>
    intro err
    have hp : mirrorRejects sha1 p = true := hpre p (List.mem_cons_self p pre')
    obtain ⟨c, hc, hrec⟩ :=
      ih (fun m' hm' => hpre m' (List.mem_cons_of_mem p hm')) (some (mirrorError sha1 p))
    refine ⟨c, hc, ?_⟩
    rw [List.cons_append, downloadLoop_reject_cons (pre' ++ m :: post) err hp, hrec]
    simp [bumpTried]

/- ---------------------------------------------------------------------
Helper lemmas: lifecycle state machine.
--------------------------------------------------------------------- -/

theorem andThen_ok_iff (o : Outcome) (f : Flags → Outcome) :
    (o.andThen f).ok = true ↔ (o.ok = true ∧ (f o.flags).ok = true) := by
  by_cases h : o.ok = true <;> simp [Outcome.andThen, h]

theorem andThen_of_ok {o : Outcome} {f : Flags → Outcome} (h : o.ok = true) :
    o.andThen f = { flags := (f o.flags).flags, trace := o.trace ++ (f o.flags).trace,
                    ok := (f o.flags).ok } := by
  simp [Outcome.andThen, h]

theorem andThen_of_fail {o : Outcome} {f : Flags → Outcome} (h : o.ok = false) :
    o.andThen f = o := by
  simp [Outcome.andThen, h]

theorem cleanPackage_flags_cases (d : Desc) (env : Env) (st : Flags) :
    (cleanPackage d env st).flags = st ∨
      (cleanPackage d env st).flags = ⟨false, false, false, false⟩ := by
  unfold cleanPackage noopOutcome
  split_ifs <;> simp

theorem cleanPackage_ok_dl (d : Desc) (env : Env) (st : Flags) (hd : d.downloadUrl = true)
    (h : (cleanPackage d env st).ok = true) :
    (cleanPackage d env st).flags = ⟨false, false, false, false⟩ := by
  unfold cleanPackage noopOutcome at h ⊢
  split_ifs at h ⊢ <;> simp_all

theorem cleanPackage_fail_flags (d : Desc) (env : Env) (st : Flags)
    (h : (cleanPackage d env st).ok = false) : (cleanPackage d env st).flags = st := by
  unfold cleanPackage noopOutcome at h ⊢
  split_ifs at h ⊢ <;> simp_all

theorem cleanPackage_no_fetch_extract (d : Desc) (env : Env) (st : Flags) :
    Cmd.fetch ∉ (cleanPackage d env st).trace ∧ Cmd.extract ∉ (cleanPackage d env st).trace := by
  unfold cleanPackage noopOutcome
  split_ifs <;> simp

theorem cleanPackage_rm (d : Desc) (env : Env) (st : Flags) (hd : d.downloadUrl = true)
    (hp : d.packageUrl = true) (he : env.pkgDirExists = true) :
    Cmd.rmrf ∈ (cleanPackage d env st).trace := by
  unfold cleanPackage
  split_ifs <;> simp_all

theorem unpack_noop (d : Desc) (env : Env) (st : Flags) (h : st.unpacked = true) :
    unpack d env st = noopOutcome st := by
  simp [unpack, h]

theorem unpack_of_cleanPackage_fail (d : Desc) (env : Env) (st : Flags)
    (hu : st.unpacked = false) (hok : (cleanPackage d env st).ok = false) :
    unpack d env st = cleanPackage d env st := by
  simp [unpack, hu, hok]

theorem unpack_flags_cases (d : Desc) (env : Env) (st : Flags) :
    (unpack d env st).flags = st ∨ (unpack d env st).flags = ⟨false, false, false, false⟩ ∨
      (unpack d env st).flags = ⟨true, false, false, false⟩ := by
  cases hu : st.unpacked with
  | true => left; simp [unpack, hu, noopOutcome]
  | false =>
    cases hok : (cleanPackage d env st).ok with
    | false =>
      left
      rw [unpack_of_cleanPackage_fail d env st hu hok]
      exact cleanPackage_fail_flags d env st hok
    | true =>
      cases hd : d.downloadUrl with
      | false =>
        rcases cleanPackage_flags_cases d env st with h | h
        · left; simpa [unpack, hu, hok, hd] using h
        · right; left; simpa [unpack, hu, hok, hd] using h
      | true =>
        have hcf := cleanPackage_ok_dl d env st hd hok
        cases hr : (download d.sha1 env.localFile env.mirrors).raised with
        | some e => right; left; simp [unpack, hu, hok, hd, hr, hcf]
        | none =>
          cases hc : d.compression with
          | other => right; left; simp [unpack, hu, hok, hd, hr, hc, hcf]
          | gz =>
            cases he : env.extractOk with
            | true => right; right; simp [unpack, hu, hok, hd, hr, hc, he, hcf]
            | false => right; left; simp [unpack, hu, hok, hd, hr, hc, he, hcf]
          | bz2 =>
            cases he : env.extractOk with
            | true => right; right; simp [unpack, hu, hok, hd, hr, hc, he, hcf]
            | false => right; left; simp [unpack, hu, hok, hd, hr, hc, he, hcf]
          | zip =>
            cases he : env.extractOk with
            | true => right; right; simp [unpack, hu, hok, hd, hr, hc, he, hcf]
            | false => right; left; simp [unpack, hu, hok, hd, hr, hc, he, hcf]

theorem unpack_ok_spec (d : Desc) (env : Env) (st : Flags) (hd : d.downloadUrl = true)
    (hu : st.unpacked = false) (h : (unpack d env st).ok = true) :
    (unpack d env st).flags = ⟨true, false, false, false⟩ ∧
      Cmd.extract ∈ (unpack d env st).trace := by
  cases hok : (cleanPackage d env st).ok with
  | false => simp [unpack, hu, hok] at h
  | true =>
    have hcf := cleanPackage_ok_dl d env st hd hok
    cases hr : (download d.sha1 env.localFile env.mirrors).raised with
    | some e => simp [unpack, hu, hok, hd, hr] at h
    | none =>
      cases hc : d.compression with
      | other => simp [unpack, hu, hok, hd, hr, hc] at h
      | gz =>
        cases he : env.extractOk with
        | false => simp [unpack, hu, hok, hd, hr, hc, he] at h
        | true => constructor <;> simp [unpack, hu, hok, hd, hr, hc, he, hcf]
      | bz2 =>
        cases he : env.extractOk with
        | false => simp [unpack, hu, hok, hd, hr, hc, he] at h
        | true => constructor <;> simp [unpack, hu, hok, hd, hr, hc, he, hcf]
      | zip =>
        cases he : env.extractOk with
        | false => simp [unpack, hu, hok, hd, hr, hc, he] at h
        | true => constructor <;> simp [unpack, hu, hok, hd, hr, hc, he, hcf]

theorem unpack_ok_unpacked (d : Desc) (env : Env) (st : Flags) (hd : d.downloadUrl = true)
    (h : (unpack d env st).ok = true) : (unpack d env st).flags.unpacked = true := by
  cases hu : st.unpacked with
  | true => simp [unpack, hu, noopOutcome]
  | false => rw [(unpack_ok_spec d env st hd hu h).1]

theorem unpack_extract_fail (d : Desc) (env : Env) (st : Flags) (hu : st.unpacked = false)
    (hd : d.downloadUrl = true) (he : env.extractOk = false) :
    (unpack d env st).flags.unpacked = false ∧ (unpack d env st).ok = false := by
  cases hok : (cleanPackage d env st).ok with
  | false =>
    rw [unpack_of_cleanPackage_fail d env st hu hok, cleanPackage_fail_flags d env st hok]
    exact ⟨hu, hok⟩
  | true =>
    have hcf := cleanPackage_ok_dl d env st hd hok
    cases hr : (download d.sha1 env.localFile env.mirrors).raised with
    | some e => constructor <;> simp [unpack, hu, hok, hd, hr, hcf]
    | none =>
      cases hc : d.compression with
      | other => constructor <;> simp [unpack, hu, hok, hd, hr, hc, hcf]
      | gz => constructor <;> simp [unpack, hu, hok, hd, hr, hc, he, hcf]
      | bz2 => constructor <;> simp [unpack, hu, hok, hd, hr, hc, he, hcf]
      | zip => constructor <;> simp [unpack, hu, hok, hd, hr, hc, he, hcf]

theorem unpack_trace_clean_first (d : Desc) (env : Env) (st : Flags) (hu : st.unpacked = false) :
    ∃ t, (unpack d env st).trace = (cleanPackage d env st).trace ++ t := by
  cases hok : (cleanPackage d env st).ok with
  | false => exact ⟨[], by simp [unpack_of_cleanPackage_fail d env st hu hok]⟩
  | true =>
    cases hd : d.downloadUrl with
    | false => exact ⟨[], by simp [unpack, hu, hok, hd]⟩
    | true =>
      cases hr : (download d.sha1 env.localFile env.mirrors).raised with
      | some e =>
        refine ⟨List.replicate (download d.sha1 env.localFile env.mirrors).fetched Cmd.fetch, ?_⟩
        simp [unpack, hu, hok, hd, hr]
      | none =>
        cases hc : d.compression with
        | other =>
          refine ⟨List.replicate (download d.sha1 env.localFile env.mirrors).fetched Cmd.fetch, ?_⟩
          simp [unpack, hu, hok, hd, hr, hc]
        | gz =>
          refine ⟨List.replicate (download d.sha1 env.localFile env.mirrors).fetched Cmd.fetch
            ++ [Cmd.extract], ?_⟩
          cases he : env.extractOk <;> simp [unpack, hu, hok, hd, hr, hc, he]
        | bz2 =>
          refine ⟨List.replicate (download d.sha1 env.localFile env.mirrors).fetched Cmd.fetch
            ++ [Cmd.extract], ?_⟩
          cases he : env.extractOk <;> simp [unpack, hu, hok, hd, hr, hc, he]
        | zip =>
          refine ⟨List.replicate (download d.sha1 env.localFile env.mirrors).fetched Cmd.fetch
            ++ [Cmd.extract], ?_⟩
          cases he : env.extractOk <;> simp [unpack, hu, hok, hd, hr, hc, he]

theorem ordered_fields {f : Flags} (h : orderedFlags f = true) :
    (f.installed = true → f.built = true) ∧ (f.built = true → f.configured = true) ∧
      (f.configured = true → f.unpacked = true) := by
  obtain ⟨u, c, b, i⟩ := f
  cases u <;> cases c <;> cases b <;> cases i <;> simp_all [orderedFlags]

theorem ordered_set_configured {f : Flags} (h : orderedFlags f = true) (hu : f.unpacked = true) :
    orderedFlags { f with configured := true } = true := by
  obtain ⟨u, c, b, i⟩ := f
  cases u <;> cases c <;> cases b <;> cases i <;> simp_all [orderedFlags]

theorem ordered_set_built {f : Flags} (h : orderedFlags f = true) (hc : f.configured = true) :
    orderedFlags { f with built := true } = true := by
  obtain ⟨u, c, b, i⟩ := f
  cases u <;> cases c <;> cases b <;> cases i <;> simp_all [orderedFlags]

theorem ordered_set_installed {f : Flags} (h : orderedFlags f = true) (hb : f.built = true) :
    orderedFlags { f with installed := true } = true := by
  obtain ⟨u, c, b, i⟩ := f
  cases u <;> cases c <;> cases b <;> cases i <;> simp_all [orderedFlags]

theorem ordered_reset3 (st : Flags) :
    orderedFlags { st with configured := false, built := false, installed := false } = true := by
  obtain ⟨u, c, b, i⟩ := st
  cases u <;> simp [orderedFlags]

theorem unpack_ordered (d : Desc) (env : Env) (st : Flags) (h : orderedFlags st = true) :
    orderedFlags (unpack d env st).flags = true := by
  rcases unpack_flags_cases d env st with hf | hf | hf <;> rw [hf]
  · exact h
  · decide
  · decide

theorem cleanPackage_ordered (d : Desc) (env : Env) (st : Flags) (h : orderedFlags st = true) :
    orderedFlags (cleanPackage d env st).flags = true := by
  rcases cleanPackage_flags_cases d env st with hf | hf <;> rw [hf]
  · exact h
  · decide

theorem pkgConfigure_ok_configured (d : Desc) (env : Env) (st : Flags)
    (h : (pkgConfigure d env st).ok = true) :
    (pkgConfigure d env st).flags.configured = true := by
  cases hc : st.configured with
  | true => simp [pkgConfigure, hc, noopOutcome]
  | false =>
    cases hok : (unpack d env st).ok with
    | false => simp [pkgConfigure, hc, Outcome.andThen, hok] at h
    | true => simp [pkgConfigure, hc, Outcome.andThen, hok]

theorem pkgConfigure_ordered (d : Desc) (env : Env) (st : Flags) (hd : d.downloadUrl = true)
    (h : orderedFlags st = true) : orderedFlags (pkgConfigure d env st).flags = true := by
  cases hc : st.configured with
  | true => simpa [pkgConfigure, hc, noopOutcome] using h
  | false =>
    cases hok : (unpack d env st).ok with
    | false =>
      have heq : pkgConfigure d env st = unpack d env st := by
        simp [pkgConfigure, hc, Outcome.andThen, hok]
      rw [heq]
      exact unpack_ordered d env st h
    | true =>
      have heq : (pkgConfigure d env st).flags =
          { (unpack d env st).flags with configured := true } := by
        simp [pkgConfigure, hc, Outcome.andThen, hok]
      rw [heq]
      exact ordered_set_configured (unpack_ordered d env st h)
        (unpack_ok_unpacked d env st hd hok)

theorem pkgBuild_ok_built (d : Desc) (env : Env) (st : Flags)
    (h : (pkgBuild d env st).ok = true) : (pkgBuild d env st).flags.built = true := by
  cases hb : st.built with
  | true => simp [pkgBuild, hb, noopOutcome]
  | false =>
    cases hok : (pkgConfigure d env st).ok with
    | false => simp [pkgBuild, hb, Outcome.andThen, hok] at h
    | true => simp [pkgBuild, hb, Outcome.andThen, hok]

theorem pkgBuild_ordered (d : Desc) (env : Env) (st : Flags) (hd : d.downloadUrl = true)
    (h : orderedFlags st = true) : orderedFlags (pkgBuild d env st).flags = true := by
  cases hb : st.built with
  | true => simpa [pkgBuild, hb, noopOutcome] using h
  | false =>
    cases hok : (pkgConfigure d env st).ok with
    | false =>
      have heq : pkgBuild d env st = pkgConfigure d env st := by
        simp [pkgBuild, hb, Outcome.andThen, hok]
      rw [heq]
      exact pkgConfigure_ordered d env st hd h
    | true =>
      have heq : (pkgBuild d env st).flags =
          { (pkgConfigure d env st).flags with built := true } := by
        simp [pkgBuild, hb, Outcome.andThen, hok]
      rw [heq]
      exact ordered_set_built (pkgConfigure_ordered d env st hd h)
        (pkgConfigure_ok_configured d env st hok)

theorem rapidjsonInstall_ordered (d : Desc) (env : Env) (st : Flags) (hd : d.downloadUrl = true)
    (h : orderedFlags st = true) : orderedFlags (rapidjsonInstall d env st).flags = true := by
  cases hi : st.installed with
  | true => simpa [rapidjsonInstall, hi, noopOutcome] using h
  | false =>
    cases hok : (pkgBuild d env st).ok with
    | false =>
      have heq : rapidjsonInstall d env st = pkgBuild d env st := by
        simp [rapidjsonInstall, hi, Outcome.andThen, hok]
      rw [heq]
      exact pkgBuild_ordered d env st hd h
    | true =>
      cases hp : d.packageUrl with
      | false =>
        have heq : (rapidjsonInstall d env st).flags = (pkgBuild d env st).flags := by
          simp [rapidjsonInstall, hi, Outcome.andThen, hok, hp, noopOutcome]
        rw [heq]
        exact pkgBuild_ordered d env st hd h
      | true =>
        cases hrs : env.rsyncOk with
        | false =>
          have heq : (rapidjsonInstall d env st).flags = (pkgBuild d env st).flags := by
            simp [rapidjsonInstall, hi, Outcome.andThen, hok, hp, hrs]
          rw [heq]
          exact pkgBuild_ordered d env st hd h
        | true =>
          have heq : (rapidjsonInstall d env st).flags =
              { (pkgBuild d env st).flags with installed := true } := by
            simp [rapidjsonInstall, hi, Outcome.andThen, hok, hp, hrs]
          rw [heq]
          exact ordered_set_installed (pkgBuild_ordered d env st hd h)
            (pkgBuild_ok_built d env st hok)

theorem makeConfigure_ok_configured (d : Desc) (env : Env) (st : Flags)
    (hp : d.packageUrl = true) (h : (makeConfigure d env st).ok = true) :
    (makeConfigure d env st).flags.configured = true := by
  cases hc : st.configured with
  | true => simp [makeConfigure, hc, noopOutcome]
  | false =>
    cases hok : (unpack d env st).ok with
    | false => simp [makeConfigure, hc, hp, Outcome.andThen, hok] at h
    | true =>
      cases hcs : env.configureScript with
      | false => simp [makeConfigure, hc, hp, Outcome.andThen, hok, hcs]
      | true =>
        cases hco : env.configureOk with
        | false => simp [makeConfigure, hc, hp, Outcome.andThen, hok, hcs, hco] at h
        | true => simp [makeConfigure, hc, hp, Outcome.andThen, hok, hcs, hco]

theorem makeConfigure_ordered (d : Desc) (env : Env) (st : Flags) (hd : d.downloadUrl = true)
    (h : orderedFlags st = true) : orderedFlags (makeConfigure d env st).flags = true := by
  cases hc : st.configured with
  | true => simpa [makeConfigure, hc, noopOutcome] using h
  | false =>
    cases hp : d.packageUrl with
    | false => simpa [makeConfigure, hc, hp, noopOutcome] using h
    | true =>
      cases hok : (unpack d env st).ok with
      | false =>
        have heq : makeConfigure d env st = unpack d env st := by
          simp [makeConfigure, hc, hp, Outcome.andThen, hok]
        rw [heq]
        exact unpack_ordered d env st h
      | true =>
        have hun := unpack_ok_unpacked d env st hd hok
        have hord := unpack_ordered d env st h
        cases hcs : env.configureScript with
        | false =>
          have heq : (makeConfigure d env st).flags =
              { (unpack d env st).flags with configured := true } := by
            simp [makeConfigure, hc, hp, Outcome.andThen, hok, hcs]
          rw [heq]
          exact ordered_set_configured hord hun
        | true =>
          cases hco : env.configureOk with
          | false =>
            have heq : (makeConfigure d env st).flags = (unpack d env st).flags := by
              simp [makeConfigure, hc, hp, Outcome.andThen, hok, hcs, hco]
            rw [heq]
            exact hord
          | true =>
            have heq : (makeConfigure d env st).flags =
                { (unpack d env st).flags with configured := true } := by
              simp [makeConfigure, hc, hp, Outcome.andThen, hok, hcs, hco]
            rw [heq]
            exact ordered_set_configured hord hun

theorem makeBuild_ok_built (d : Desc) (env : Env) (st : Flags) (hp : d.packageUrl = true)
    (h : (makeBuild d env st).ok = true) : (makeBuild d env st).flags.built = true := by
  cases hb : st.built with
  | true => simp [makeBuild, hb, noopOutcome]
  | false =>
    cases hok : (makeConfigure d env st).ok with
    | false => simp [makeBuild, hb, Outcome.andThen, hok] at h
    | true =>
      cases hmb : env.makeBuildOk with
      | false => simp [makeBuild, hb, Outcome.andThen, hok, hp, hmb] at h
      | true => simp [makeBuild, hb, Outcome.andThen, hok, hp, hmb]

theorem makeBuild_ordered (d : Desc) (env : Env) (st : Flags) (hd : d.downloadUrl = true)
    (h : orderedFlags st = true) : orderedFlags (makeBuild d env st).flags = true := by
  cases hb : st.built with
  | true => simpa [makeBuild, hb, noopOutcome] using h
  | false =>
    cases hok : (makeConfigure d env st).ok with
    | false =>
      have heq : makeBuild d env st = makeConfigure d env st := by
        simp [makeBuild, hb, Outcome.andThen, hok]
      rw [heq]
      exact makeConfigure_ordered d env st hd h
    | true =>
      cases hp : d.packageUrl with
      | false =>
        have heq : (makeBuild d env st).flags = (makeConfigure d env st).flags := by
          simp [makeBuild, hb, Outcome.andThen, hok, hp, noopOutcome]
        rw [heq]
        exact makeConfigure_ordered d env st hd h
      | true =>
        cases hmb : env.makeBuildOk with
        | false =>
          have heq : (makeBuild d env st).flags = (makeConfigure d env st).flags := by
            simp [makeBuild, hb, Outcome.andThen, hok, hp, hmb]
          rw [heq]
          exact makeConfigure_ordered d env st hd h
        | true =>
          have heq : (makeBuild d env st).flags =
              { (makeConfigure d env st).flags with built := true } := by
            simp [makeBuild, hb, Outcome.andThen, hok, hp, hmb]
          rw [heq]
          exact ordered_set_built (makeConfigure_ordered d env st hd h)
            (makeConfigure_ok_configured d env st hp hok)

theorem makeInstall_ordered (d : Desc) (env : Env) (st : Flags) (hd : d.downloadUrl = true)
    (h : orderedFlags st = true) : orderedFlags (makeInstall d env st).flags = true := by
  cases hi : st.installed with
  | true => simpa [makeInstall, hi, noopOutcome] using h
  | false =>
    cases hok : (makeBuild d env st).ok with
    | false =>
      have heq : makeInstall d env st = makeBuild d env st := by
        simp [makeInstall, hi, Outcome.andThen, hok]
      rw [heq]
      exact makeBuild_ordered d env st hd h
    | true =>
      cases hp : d.packageUrl with
      | false =>
        have heq : (makeInstall d env st).flags = (makeBuild d env st).flags := by
          simp [makeInstall, hi, Outcome.andThen, hok, hp, noopOutcome]
        rw [heq]
        exact makeBuild_ordered d env st hd h
      | true =>
        cases hmi : env.makeInstallOk with
        | false =>
          have heq : (makeInstall d env st).flags = (makeBuild d env st).flags := by
            simp [makeInstall, hi, Outcome.andThen, hok, hp, hmi]
          rw [heq]
          exact makeBuild_ordered d env st hd h
        | true =>
          have heq : (makeInstall d env st).flags =
              { (makeBuild d env st).flags with installed := true } := by
            simp [makeInstall, hi, Outcome.andThen, hok, hp, hmi]
          rw [heq]
          exact ordered_set_installed (makeBuild_ordered d env st hd h)
            (makeBuild_ok_built d env st hp hok)

theorem makeCleanOp_flags_cases (d : Desc) (env : Env) (st : Flags) :
    (makeCleanOp d env st).flags = st ∨
      (makeCleanOp d env st).flags =
        { st with configured := false, built := false, installed := false } := by
  unfold makeCleanOp noopOutcome
  split_ifs <;> simp

theorem makeCleanOp_ordered (d : Desc) (env : Env) (st : Flags) (h : orderedFlags st = true) :
    orderedFlags (makeCleanOp d env st).flags = true := by
  rcases makeCleanOp_flags_cases d env st with hf | hf <;> rw [hf]
  · exact h
  · exact ordered_reset3 st

theorem pkgClean_ordered (st : Flags) (h : orderedFlags st = true) :
    orderedFlags (pkgClean st).flags = true := by
  have : (pkgClean st).flags = { st with configured := false, built := false, installed := false } :=
    rfl
  rw [this]
  exact ordered_reset3 st

theorem runAction_ordered (v : Variant) (a : BuildAction) (d : Desc) (env : Env) (st : Flags)
    (hd : d.downloadUrl = true) (h : orderedFlags st = true) :
    orderedFlags (runAction v a d env st).flags = true := by
  cases a with
  | clean =>
    cases v with
    | rapidjson => exact pkgClean_ordered st h
    | make => exact makeCleanOp_ordered d env st h
  | cleanPkg => exact cleanPackage_ordered d env st h
  | build =>
    cases hi : st.installed with
    | true => simpa [runAction, hi, noopOutcome] using h
    | false =>
      cases v with
      | rapidjson =>
        have heq : runAction Variant.rapidjson BuildAction.build d env st =
            rapidjsonInstall d env st := by
          simp [runAction, hi]
        rw [heq]
        exact rapidjsonInstall_ordered d env st hd h
      | make =>
        have heq : runAction Variant.make BuildAction.build d env st = makeInstall d env st := by
          simp [runAction, hi]
        rw [heq]
        exact makeInstall_ordered d env st hd h

theorem pkgConfigure_ok_extract (d : Desc) (env : Env) (st : Flags) (hd : d.downloadUrl = true)
    (hu : st.unpacked = false) (hc : st.configured = false)
    (h : (pkgConfigure d env st).ok = true) : Cmd.extract ∈ (pkgConfigure d env st).trace := by
  cases hok : (unpack d env st).ok with
  | false => simp [pkgConfigure, hc, Outcome.andThen, hok] at h
  | true =>
    have ht : (pkgConfigure d env st).trace = (unpack d env st).trace := by
      simp [pkgConfigure, hc, Outcome.andThen, hok]
    rw [ht]
    exact (unpack_ok_spec d env st hd hu hok).2

theorem pkgBuild_ok_extract (d : Desc) (env : Env) (st : Flags) (hd : d.downloadUrl = true)
    (hu : st.unpacked = false) (hc : st.configured = false) (hb : st.built = false)
    (h : (pkgBuild d env st).ok = true) : Cmd.extract ∈ (pkgBuild d env st).trace := by
  cases hok : (pkgConfigure d env st).ok with
  | false => simp [pkgBuild, hb, Outcome.andThen, hok] at h
  | true =>
    have ht : (pkgBuild d env st).trace = (pkgConfigure d env st).trace := by
      simp [pkgBuild, hb, Outcome.andThen, hok]
    rw [ht]
    exact pkgConfigure_ok_extract d env st hd hu hc hok

theorem rapidjsonInstall_ok_extract (d : Desc) (env : Env) (st : Flags)
    (hd : d.downloadUrl = true) (hu : st.unpacked = false) (hc : st.configured = false)
    (hb : st.built = false) (hi : st.installed = false)
    (h : (rapidjsonInstall d env st).ok = true) :
    Cmd.extract ∈ (rapidjsonInstall d env st).trace := by
  cases hok : (pkgBuild d env st).ok with
  | false => simp [rapidjsonInstall, hi, Outcome.andThen, hok] at h
  | true =>
    have hex := pkgBuild_ok_extract d env st hd hu hc hb hok
    cases hp : d.packageUrl with
    | false =>
      have ht : (rapidjsonInstall d env st).trace = (pkgBuild d env st).trace := by
        simp [rapidjsonInstall, hi, Outcome.andThen, hok, hp, noopOutcome]
      rw [ht]
      exact hex
    | true =>
      have ht : (rapidjsonInstall d env st).trace =
          (pkgBuild d env st).trace ++ [Cmd.rsyncRun] := by
        cases hrs : env.rsyncOk <;>
          simp [rapidjsonInstall, hi, Outcome.andThen, hok, hp, hrs]
      rw [ht]
      exact List.mem_append_left _ hex

theorem makeConfigure_ok_extract (d : Desc) (env : Env) (st : Flags) (hd : d.downloadUrl = true)
    (hp : d.packageUrl = true) (hu : st.unpacked = false) (hc : st.configured = false)
    (h : (makeConfigure d env st).ok = true) : Cmd.extract ∈ (makeConfigure d env st).trace := by
  cases hok : (unpack d env st).ok with
  | false => simp [makeConfigure, hc, hp, Outcome.andThen, hok] at h
  | true =>
    have hex := (unpack_ok_spec d env st hd hu hok).2
    cases hcs : env.configureScript with
    | false =>
      have ht : (makeConfigure d env st).trace = (unpack d env st).trace := by
        simp [makeConfigure, hc, hp, Outcome.andThen, hok, hcs]
      rw [ht]
      exact hex
    | true =>
      have ht : (makeConfigure d env st).trace =
          (unpack d env st).trace ++ [Cmd.configureRun] := by
        cases hco : env.configureOk <;>
          simp [makeConfigure, hc, hp, Outcome.andThen, hok, hcs, hco]
      rw [ht]
      exact List.mem_append_left _ hex

theorem makeBuild_ok_extract (d : Desc) (env : Env) (st : Flags) (hd : d.downloadUrl = true)
    (hp : d.packageUrl = true) (hu : st.unpacked = false) (hc : st.configured = false)
    (hb : st.built = false) (h : (makeBuild d env st).ok = true) :
    Cmd.extract ∈ (makeBuild d env st).trace := by
  cases hok : (makeConfigure d env st).ok with
  | false => simp [makeBuild, hb, Outcome.andThen, hok] at h
  | true =>
    have hex := makeConfigure_ok_extract d env st hd hp hu hc hok
    have ht : (makeBuild d env st).trace =
        (makeConfigure d env st).trace ++ [Cmd.makeBuildRun] := by
      cases hmb : env.makeBuildOk <;> simp [makeBuild, hb, Outcome.andThen, hok, hp, hmb]
    rw [ht]
    exact List.mem_append_left _ hex

theorem makeInstall_ok_extract (d : Desc) (env : Env) (st : Flags) (hd : d.downloadUrl = true)
    (hp : d.packageUrl = true) (hu : st.unpacked = false) (hc : st.configured = false)
    (hb : st.built = false) (hi : st.installed = false)
    (h : (makeInstall d env st).ok = true) : Cmd.extract ∈ (makeInstall d env st).trace := by
  cases hok : (makeBuild d env st).ok with
  | false => simp [makeInstall, hi, Outcome.andThen, hok] at h
  | true =>
    have hex := makeBuild_ok_extract d env st hd hp hu hc hb hok
    have ht : (makeInstall d env st).trace =
        (makeBuild d env st).trace ++ [Cmd.makeInstallRun] := by
      cases hmi : env.makeInstallOk <;> simp [makeInstall, hi, Outcome.andThen, hok, hp, hmi]
    rw [ht]
    exact List.mem_append_left _ hex

theorem build_scratch_extract (v : Variant) (d : Desc) (env : Env) (hd : d.downloadUrl = true)
    (hp : d.packageUrl = true)
    (h : (runAction v BuildAction.build d env ⟨false, false, false, false⟩).ok = true) :
    Cmd.extract ∈ (runAction v BuildAction.build d env ⟨false, false, false, false⟩).trace := by
  cases v with
  | rapidjson =>
    have heq : runAction Variant.rapidjson BuildAction.build d env ⟨false, false, false, false⟩ =
        rapidjsonInstall d env ⟨false, false, false, false⟩ := by
      simp [runAction]
    rw [heq] at h ⊢
    exact rapidjsonInstall_ok_extract d env _ hd rfl rfl rfl rfl h
  | make =>
    have heq : runAction Variant.make BuildAction.build d env ⟨false, false, false, false⟩ =
        makeInstall d env ⟨false, false, false, false⟩ := by
      simp [runAction]
    rw [heq] at h ⊢
    exact makeInstall_ok_extract d env _ hd hp rfl rfl rfl rfl h

theorem runAction_flags_no_pkgurl (a : BuildAction) (d : Desc) (env : Env) (st : Flags)
    (hp : d.packageUrl = false) : (runAction Variant.make a d env st).flags = st := by
  cases a with
  | clean =>
    have heq : runAction Variant.make BuildAction.clean d env st = makeCleanOp d env st := rfl
    rw [heq]
    simp [makeCleanOp, hp, noopOutcome]
  | cleanPkg =>
    have heq : runAction Variant.make BuildAction.cleanPkg d env st = cleanPackage d env st := rfl
    rw [heq]
    unfold cleanPackage noopOutcome
    split_ifs <;> simp_all
  | build =>
    cases hi : st.installed with
    | true => simp [runAction, hi, noopOutcome]
    | false =>
      have hmc : makeConfigure d env st = noopOutcome st := by
        cases hc : st.configured <;> simp [makeConfigure, hc, hp]
      have hmb : makeBuild d env st = noopOutcome st := by
        cases hb : st.built with
        | true => simp [makeBuild, hb]
        | false => simp [makeBuild, hb, hmc, Outcome.andThen, noopOutcome, hp]
      have hmi : makeInstall d env st = noopOutcome st := by
        simp [makeInstall, hi, hmb, Outcome.andThen, noopOutcome, hp]
      simp [runAction, hi, hmi, noopOutcome]

theorem reachable_make_no_pkgurl {d : Desc} {st : Flags} (hp : d.packageUrl = false)
    (h : Reachable Variant.make d st) : st = ⟨false, false, false, false⟩ := by
  induction h with
  | init => rfl
  | step h a env ih => rw [runAction_flags_no_pkgurl a _ env _ hp, ih]

theorem makeCleanOp_ok_flags (d : Desc) (env : Env) (st : Flags) (hp : d.packageUrl = true)
    (h : (makeCleanOp d env st).ok = true) :
    (makeCleanOp d env st).flags =
      { st with configured := false, built := false, installed := false } := by
  unfold makeCleanOp noopOutcome at h ⊢
  split_ifs at h ⊢ <;> simp_all

theorem lookupKey_nodeClean_other (node : Node) (k : String) (h1 : ¬ k = "configured")
    (h2 : ¬ k = "built") (h3 : ¬ k = "installed") :
    lookupKey k (nodeClean node) = lookupKey k node := by
  unfold nodeClean
  rw [lookupKey_assignKey_ne _ h3, lookupKey_assignKey_ne _ h2, lookupKey_assignKey_ne _ h1]

theorem lookupKey_nodeClean_flags (node : Node) :
    lookupKey "configured" (nodeClean node) = some (JVal.bool false) ∧
    lookupKey "built" (nodeClean node) = some (JVal.bool false) ∧
    lookupKey "installed" (nodeClean node) = some (JVal.bool false) := by
  unfold nodeClean
  refine ⟨?_, ?_, ?_⟩
  · rw [lookupKey_assignKey_ne _ (by decide), lookupKey_assignKey_ne _ (by decide),
      lookupKey_assignKey_self]
  · rw [lookupKey_assignKey_ne _ (by decide), lookupKey_assignKey_self]
  · rw [lookupKey_assignKey_self]

/-- One orchestrator build action on the no-download descriptor drives the
base lifecycle to configured and built with unpacked still false. -/
theorem reach_partial_flags :
    Reachable Variant.rapidjson d0 ⟨false, true, true, false⟩ := by
  have h : Reachable Variant.rapidjson d0
      (runAction Variant.rapidjson BuildAction.build d0 env0 ⟨false, false, false, false⟩).flags :=
    Reachable.step Reachable.init BuildAction.build env0
  have e : (runAction Variant.rapidjson BuildAction.build d0 env0
      ⟨false, false, false, false⟩).flags = ⟨false, true, true, false⟩ := by decide
  rw [e] at h
  exact h

theorem makeConfigure_built_false (d : Desc) (env : Env) (st : Flags) (hb : st.built = false) :
    (makeConfigure d env st).flags.built = false := by
  cases hc : st.configured with
  | true => simp [makeConfigure, hc, noopOutcome, hb]
  | false =>
    cases hp : d.packageUrl with
    | false => simp [makeConfigure, hc, hp, noopOutcome, hb]
    | true =>
      have hub : (unpack d env st).flags.built = false := by
        rcases unpack_flags_cases d env st with hf | hf | hf <;> rw [hf] <;> simp [hb]
      cases hok : (unpack d env st).ok with
      | false => simp [makeConfigure, hc, hp, Outcome.andThen, hok, hub]
      | true =>
        cases hcs : env.configureScript with
        | false => simp [makeConfigure, hc, hp, Outcome.andThen, hok, hcs, hub]
        | true =>
          cases hco : env.configureOk <;>
            simp [makeConfigure, hc, hp, Outcome.andThen, hok, hcs, hco, hub]

theorem makeBuild_cmd_fail (d : Desc) (env : Env) (st : Flags) (hb : st.built = false)
    (hp : d.packageUrl = true) (hmb : env.makeBuildOk = false) :
    (makeBuild d env st).flags.built = false ∧ (makeBuild d env st).ok = false := by
  cases hok : (makeConfigure d env st).ok with
  | false =>
    have heq : makeBuild d env st = makeConfigure d env st := by
      simp [makeBuild, hb, Outcome.andThen, hok]
    rw [heq]
    exact ⟨makeConfigure_built_false d env st hb, hok⟩
  | true =>
    have hf : (makeBuild d env st).flags = (makeConfigure d env st).flags := by
      simp [makeBuild, hb, Outcome.andThen, hok, hp, hmb]
    have ho : (makeBuild d env st).ok = false := by
      simp [makeBuild, hb, Outcome.andThen, hok, hp, hmb]
    rw [hf]
    exact ⟨makeConfigure_built_false d env st hb, ho⟩

/-- C2: every stage method is idempotent (a no-op when its flag is already
set); otherwise it guarantees the prior stage, runs its external command
and sets its flag only on a zero exit status, while a non-zero exit leaves
the flag unset and raises; and a build action on an installed package
performs zero external commands. -/
theorem c2_stage_idempotence_and_gating :
    (∀ (d : Desc) (env : Env) (st : Flags), st.unpacked = true →
       unpack d env st = noopOutcome st) ∧
    (∀ (d : Desc) (env : Env) (st : Flags), st.configured = true →
       pkgConfigure d env st = noopOutcome st ∧ makeConfigure d env st = noopOutcome st) ∧
    (∀ (d : Desc) (env : Env) (st : Flags), st.built = true →
       pkgBuild d env st = noopOutcome st ∧ makeBuild d env st = noopOutcome st) ∧
    (∀ (d : Desc) (env : Env) (st : Flags), st.installed = true →
       rapidjsonInstall d env st = noopOutcome st ∧ makeInstall d env st = noopOutcome st) ∧
    (∀ (d : Desc) (env : Env) (st : Flags), st.unpacked = false → d.downloadUrl = true →
       env.extractOk = false →
       (unpack d env st).flags.unpacked = false ∧ (unpack d env st).ok = false) ∧
    (∀ (d : Desc) (env : Env) (st : Flags), st.built = false → d.packageUrl = true →
       env.makeBuildOk = false →
       (makeBuild d env st).flags.built = false ∧ (makeBuild d env st).ok = false) ∧
    (∀ (d : Desc) (env : Env) (st : Flags), d.downloadUrl = true → d.packageUrl = true →
       orderedFlags st = true → (makeBuild d env st).ok = true →
       (makeBuild d env st).flags.built = true ∧ (makeBuild d env st).flags.configured = true ∧
         (makeBuild d env st).flags.unpacked = true) ∧
    (∀ (d : Desc) (env : Env) (st : Flags), st.built = false → d.packageUrl = true →
       (makeBuild d env st).flags.built = true → env.makeBuildOk = true) ∧
    (∀ (v : Variant) (d : Desc) (env : Env) (st : Flags), st.installed = true →
       runAction v BuildAction.build d env st = noopOutcome st) := by
  refine ⟨?_, ?_, ?_, ?_, ?_, ?_, ?_, ?_, ?_⟩
  · intro d env st h
    exact unpack_noop d env st h
  · intro d env st h
    exact ⟨by simp [pkgConfigure, h], by simp [makeConfigure, h]⟩
  · intro d env st h
    exact ⟨by simp [pkgBuild, h], by simp [makeBuild, h]⟩
  · intro d env st h
    exact ⟨by simp [rapidjsonInstall, h], by simp [makeInstall, h]⟩
  · intro d env st hu hd he
    exact unpack_extract_fail d env st hu hd he
  · intro d env st hb hp hmb
    exact makeBuild_cmd_fail d env st hb hp hmb
  · intro d env st hd hp hord hok
    cases hb : st.built with
    | true =>
      have heq : makeBuild d env st = noopOutcome st := by simp [makeBuild, hb]
      rw [heq]
      have hf := ordered_fields hord
      exact ⟨hb, hf.2.1 hb, hf.2.2 (hf.2.1 hb)⟩
    | false =>
      cases hok2 : (makeConfigure d env st).ok with
      | false => simp [makeBuild, hb, Outcome.andThen, hok2] at hok
      | true =>
        cases hmb : env.makeBuildOk with
        | false => simp [makeBuild, hb, Outcome.andThen, hok2, hp, hmb] at hok
        | true =>
          have hf : (makeBuild d env st).flags =
              { (makeConfigure d env st).flags with built := true } := by
            simp [makeBuild, hb, Outcome.andThen, hok2, hp, hmb]
          rw [hf]
          have hcc := makeConfigure_ok_configured d env st hp hok2
          have hord2 := makeConfigure_ordered d env st hd hord
          have hfu := (ordered_fields hord2).2.2 hcc
          exact ⟨rfl, by simpa using hcc, by simpa using hfu⟩
  · intro d env st hb hp hbuilt
    cases hmb : env.makeBuildOk with
    | true => rfl
    | false =>
      have := (makeBuild_cmd_fail d env st hb hp hmb).1
      rw [this] at hbuilt
      cases hbuilt
  · intro v d env st hi
    cases v <;> simp [runAction, hi]

/-- C2 witness: an already-unpacked record makes unpack a no-op, and a
build action on an installed record issues no commands. -/
theorem c2_witness :
    unpack d1 env1 ⟨true, false, false, false⟩ = noopOutcome ⟨true, false, false, false⟩ ∧
    runAction Variant.make BuildAction.build d1 env1 ⟨true, true, true, true⟩ =
      noopOutcome ⟨true, true, true, true⟩ :=
  ⟨c2_stage_idempotence_and_gating.1 d1 env1 ⟨true, false, false, false⟩ rfl,
   c2_stage_idempotence_and_gating.2.2.2.2.2.2.2.2 Variant.make d1 env1 ⟨true, true, true, true⟩ rfl⟩

/-- C3 counterexample: a descriptor with no declared remote url (hence no
download url) is driven by a single build action to a reachable state with
configured and built true while unpacked is false, violating the claimed
invariant for every descriptor. -/
theorem c3_counterexample :
    Reachable Variant.rapidjson d0 ⟨false, true, true, false⟩ ∧
    (⟨false, true, true, false⟩ : Flags).configured = true ∧
    (⟨false, true, true, false⟩ : Flags).unpacked = false :=
  ⟨reach_partial_flags, rfl, rfl⟩

/-- C3 amended: for every descriptor whose download url is declared, every
state reachable under any sequence of build, clean and clean.package
actions satisfies installed implies built implies configured implies
unpacked. -/
theorem c3_amended_flag_invariant (v : Variant) (d : Desc) (st : Flags)
    (hd : d.downloadUrl = true) (h : Reachable v d st) :
    (st.installed = true → st.built = true) ∧ (st.built = true → st.configured = true) ∧
      (st.configured = true → st.unpacked = true) := by
  have hord : orderedFlags st = true := by
    induction h with
    | init => decide
    | step h a env ih => exact runAction_ordered _ a _ env _ hd ih
  exact ordered_fields hord

/-- C3 amended witness: after one successful build action on a full
descriptor the reached state is installed, so the invariant forces built. -/
theorem c3_amended_witness :
    (runAction Variant.make BuildAction.build d1 env1
      ⟨false, false, false, false⟩).flags.built = true := by
  have hr : Reachable Variant.make d1
      (runAction Variant.make BuildAction.build d1 env1 ⟨false, false, false, false⟩).flags :=
    Reachable.step Reachable.init BuildAction.build env1
  have h := (c3_amended_flag_invariant Variant.make d1 _ rfl hr).1
  apply h
  decide

/-- C8: clean assigns False to exactly the three upper flag keys of the
persisted node, leaving every other field (digest, unpacked, descriptor
fields) untouched; the base clean always completes this way, and the Make
clean does so on every reachable state whenever it completes without
raising. -/
theorem c8_clean_preserves_identity :
    (∀ (node : Node) (k : String), ¬ k = "configured" → ¬ k = "built" → ¬ k = "installed" →
       lookupKey k (nodeClean node) = lookupKey k node) ∧
    (∀ node : Node, lookupKey "document sha1 digest" (nodeClean node) =
       lookupKey "document sha1 digest" node ∧
       lookupKey "unpacked" (nodeClean node) = lookupKey "unpacked" node) ∧
    (∀ node : Node, lookupKey "configured" (nodeClean node) = some (JVal.bool false) ∧
       lookupKey "built" (nodeClean node) = some (JVal.bool false) ∧
       lookupKey "installed" (nodeClean node) = some (JVal.bool false)) ∧
    (∀ st : Flags, pkgClean st =
       { flags := ⟨st.unpacked, false, false, false⟩, trace := [], ok := true }) ∧
    (∀ (d : Desc) (env : Env) (st : Flags), Reachable Variant.make d st →
       (makeCleanOp d env st).ok = true →
       (makeCleanOp d env st).flags = ⟨st.unpacked, false, false, false⟩) := by
  refine ⟨?_, ?_, ?_, ?_, ?_⟩
  · intro node k h1 h2 h3
    exact lookupKey_nodeClean_other node k h1 h2 h3
  · intro node
    exact ⟨lookupKey_nodeClean_other node _ (by decide) (by decide) (by decide),
      lookupKey_nodeClean_other node _ (by decide) (by decide) (by decide)⟩
  · intro node
    exact lookupKey_nodeClean_flags node
  · intro st
    rfl
  · intro d env st hr hok
    cases hp : d.packageUrl with
    | true => rw [makeCleanOp_ok_flags d env st hp hok]
    | false =>
      have hst := reachable_make_no_pkgurl hp hr
      subst hst
      simp [makeCleanOp, hp, noopOutcome]

/-- C8 witness: Make clean on the fresh record of a full descriptor. -/
theorem c8_witness :
    (makeCleanOp d1 env0 ⟨false, false, false, false⟩).flags = ⟨false, false, false, false⟩ := by
  have h := c8_clean_preserves_identity.2.2.2.2 d1 env0 ⟨false, false, false, false⟩
    Reachable.init (by decide)
  simpa using h

/-- C9 counterexample: on the no-download descriptor the reachable state
with configured and built true survives a completed clean.package action
unchanged, though the claim promises all four flags reset. -/
theorem c9_counterexample :
    Reachable Variant.rapidjson d0 ⟨false, true, true, false⟩ ∧
    (runAction Variant.rapidjson BuildAction.cleanPkg d0 env0
      ⟨false, true, true, false⟩).ok = true ∧
    (runAction Variant.rapidjson BuildAction.cleanPkg d0 env0
      ⟨false, true, true, false⟩).flags.configured = true :=
  ⟨reach_partial_flags, by decide, by decide⟩

/-- C9 amended: for every package with a declared download url, a
clean.package action that completes without raising resets all four flags
and has removed the package directory when it existed; a following build
that completes runs the extraction command, and archive acquisition
fetches nothing when a checksum-matching archive is cached while a missing
archive forces at least one network fetch. -/
theorem c9_amended_clean_package :
    (∀ (d : Desc) (env : Env) (st : Flags), d.downloadUrl = true →
       (cleanPackage d env st).ok = true →
       (cleanPackage d env st).flags = ⟨false, false, false, false⟩ ∧
         (env.pkgDirExists = true → Cmd.rmrf ∈ (cleanPackage d env st).trace)) ∧
    (∀ (v : Variant) (d : Desc) (env : Env), d.downloadUrl = true → d.packageUrl = true →
       (runAction v BuildAction.build d env ⟨false, false, false, false⟩).ok = true →
       Cmd.extract ∈ (runAction v BuildAction.build d env ⟨false, false, false, false⟩).trace) ∧
    (∀ (s c : String) (mirrors : List (String × FetchOutcome)), sha1_hexdigest c = s →
       (download (some s) (some c) mirrors).fetched = 0) ∧
    (∀ (sha1 : Option String) (mirrors : List (String × FetchOutcome)),
       (download sha1 none mirrors).raised = none →
       1 ≤ (download sha1 none mirrors).fetched) := by
  refine ⟨?_, ?_, ?_, ?_⟩
  · intro d env st hd hok
    refine ⟨cleanPackage_ok_dl d env st hd hok, fun hpe => ?_⟩
    cases hp : d.packageUrl with
    | false => simp [cleanPackage, hd, hp] at hok
    | true => exact cleanPackage_rm d env st hd hp hpe
  · intro v d env hd hp h
    exact build_scratch_extract v d env hd hp h
  · intro s c mirrors h
    simp [download, precheck, h]
  · intro sha1 mirrors h
    have hpc : precheck sha1 none = none := by cases sha1 <;> rfl
    cases hl : downloadLoop sha1 mirrors none with
    | success c n =>
      have heq : download sha1 none mirrors =
          { localFile := some c, written := [c], fetched := n, raised := none } := by
        simp [download, hpc, hl]
      rw [heq]
      exact downloadLoop_success_pos hl
    | exhausted e =>
      have heq : download sha1 none mirrors =
          { localFile := none, written := [], fetched := mirrors.length, raised := some e } := by
        simp [download, hpc, hl]
      rw [heq] at h
      simp at h

/-- C9 amended witness: clean.package on a full descriptor resets the
flags of a partially built record. -/
theorem c9_amended_witness :
    (cleanPackage d1 env0 ⟨false, true, true, false⟩).flags = ⟨false, false, false, false⟩ :=
  (c9_amended_clean_package.1 d1 env0 ⟨false, true, true, false⟩ rfl (by decide)).1

/-- C10: for a package with a declared download url whose unpacked flag is
false, unpack starts with exactly the clean_package step (its trace is a
prefix containing no fetch or extraction), aborts identically when
clean_package raises, proceeds from the all-false reset state, and on
success ends with only the unpacked flag set. -/
theorem c10_unpack_cleans_first (d : Desc) (env : Env) (st : Flags)
    (hu : st.unpacked = false) (hd : d.downloadUrl = true) :
    (∃ t, (unpack d env st).trace = (cleanPackage d env st).trace ++ t) ∧
    Cmd.fetch ∉ (cleanPackage d env st).trace ∧
    Cmd.extract ∉ (cleanPackage d env st).trace ∧
    ((cleanPackage d env st).ok = false → unpack d env st = cleanPackage d env st) ∧
    ((cleanPackage d env st).ok = true →
      (cleanPackage d env st).flags = ⟨false, false, false, false⟩) ∧
    ((unpack d env st).ok = true → (unpack d env st).flags = ⟨true, false, false, false⟩) :=
  ⟨unpack_trace_clean_first d env st hu, (cleanPackage_no_fetch_extract d env st).1,
    (cleanPackage_no_fetch_extract d env st).2,
    fun hok => unpack_of_cleanPackage_fail d env st hu hok,
    fun hok => cleanPackage_ok_dl d env st hd hok,
    fun hok => (unpack_ok_spec d env st hd hu hok).1⟩

/-- C10 witness: a successful unpack from a stale record ends with only
unpacked set. -/
theorem c10_witness :
    (unpack d1 env1 ⟨false, true, true, false⟩).flags = ⟨true, false, false, false⟩ :=
  (c10_unpack_cleans_first d1 env1 ⟨false, true, true, false⟩ rfl rfl).2.2.2.2.2 (by decide)

/-- C10 counterexample: with no declared download url but a declared and
existing package directory, unpack on an un-unpacked record completes as a
silent no-op: clean_package removes nothing and no removal command is
issued, so the directory claimed to be removed survives. -/
theorem c10_counterexample :
    (⟨false, false, false, false⟩ : Flags).unpacked = false ∧
    env2.pkgDirExists = true ∧
    unpack d2 env2 ⟨false, false, false, false⟩ = noopOutcome ⟨false, false, false, false⟩ ∧
    Cmd.rmrf ∉ (unpack d2 env2 ⟨false, false, false, false⟩).trace := by
  refine ⟨rfl, rfl, by decide, by decide⟩

/-- C4: the document digest is computed over the key-sorted serialization,
so it is independent of the order the fields are given in; changing the
value of any field yields a different digest, and an unseen digest starts
with a fresh all-false progress record. -/
theorem c4_digest_stability :
    (∀ n₁ n₂ : Node, n₁.Perm n₂ → (n₁.map Prod.fst).Nodup →
       document_sha1_digest n₁ = document_sha1_digest n₂) ∧
    (∀ (n : Node) (k : String) (v v' : JVal), (n.map Prod.fst).Nodup →
       lookupKey k n = some v → ¬ v = v' →
       ¬ document_sha1_digest n = document_sha1_digest (assignKey n k v')) ∧
    (∀ (persisted : Node → Option Flags) (n : Node),
       persisted (document_sha1_digest n) = none →
       registerProgress persisted n = ⟨false, false, false, false⟩) := by
  refine ⟨fun n₁ n₂ h hn => digest_eq_of_perm h hn, ?_, ?_⟩
  · intro n k v v' hn hv hne heq
    have h1 : lookupKey k (document_sha1_digest n) = some v := by
      rw [lookupKey_digest hn]
      exact hv
    have hn' : ((assignKey n k v').map Prod.fst).Nodup := by
      rw [map_fst_assignKey hv]
      exact hn
    have h2 : lookupKey k (document_sha1_digest (assignKey n k v')) = some v' := by
      rw [lookupKey_digest hn']
      exact lookupKey_assignKey_self n k v'
    rw [heq, h2] at h1
    exact hne (Option.some.inj h1).symm
  · intro persisted n h
    simp [registerProgress, h]

/-- C4 witness: concrete two-field nodes in both orders, a checksum edit,
and an empty persisted section. -/
theorem c4_witness :
    document_sha1_digest nodeA = document_sha1_digest nodeB ∧
    ¬ document_sha1_digest nodeA =
      document_sha1_digest (assignKey nodeA "sha1" (JVal.str "bbb")) ∧
    registerProgress (fun _ => none) nodeA = ⟨false, false, false, false⟩ := by
  refine ⟨?_, ?_, ?_⟩
  · exact c4_digest_stability.1 nodeA nodeB
      (by unfold nodeA nodeB; exact List.Perm.swap _ _ _) (by decide)
  · exact c4_digest_stability.2.1 nodeA "sha1" (JVal.str "aaa") (JVal.str "bbb")
      (by decide) (by decide) (by decide)
  · exact c4_digest_stability.2.2 (fun _ => none) nodeA rfl

/-- C5: with no surviving local archive, download fetches the mirrors in
declared order; a mirror raising one of the three caught exceptions or
serving a checksum-mismatching payload is logged as the error value and
skipped; the first verified payload is written and iteration stops; when
every mirror is rejected, DownloadError is raised carrying the last error
value. -/
theorem c5_mirror_fallback :
    (∀ (sha1 lf : Option String) (pre post : List (String × FetchOutcome))
       (m : String × FetchOutcome),
       precheck sha1 lf = none →
       (∀ m' ∈ pre, mirrorRejects sha1 m' = true) →
       mirrorRejects sha1 m = false →
       ∃ c, m.2 = FetchOutcome.ok c ∧
         download sha1 lf (pre ++ m :: post) =
           { localFile := some c, written := [c], fetched := pre.length + 1,
             raised := none }) ∧
    (∀ (sha1 lf : Option String) (mirrors : List (String × FetchOutcome))
       (mlast : String × FetchOutcome),
       precheck sha1 lf = none →
       (∀ m' ∈ mirrors, mirrorRejects sha1 m' = true) →
       mirrors.getLast? = some mlast →
       download sha1 lf mirrors =
         { localFile := none, written := [], fetched := mirrors.length,
           raised := some (some (mirrorError sha1 mlast)) }) := by
  constructor
  · intro sha1 lf pre post m hpc hpre hm
    obtain ⟨c, hc, hl⟩ := downloadLoop_first_success post hpre hm none
    exact ⟨c, hc, by simp [download, hpc, hl]⟩
  · intro sha1 lf mirrors mlast hpc hall hlast
    have hl := downloadLoop_exhaust hall hlast none
    simp [download, hpc, hl]

/-- C5 witness: first mirror unreachable, second serving content matching
the declared checksum: one verified file written after two fetches. -/
theorem c5_witness :
    download (some "good") none
        [("u1", FetchOutcome.urlError "down"), ("u2", FetchOutcome.ok "good")] =
      { localFile := some "good", written := ["good"], fetched := 2, raised := none } := by
  obtain ⟨c, hc, hd⟩ := c5_mirror_fallback.1 (some "good") none
    [("u1", FetchOutcome.urlError "down")] [] ("u2", FetchOutcome.ok "good")
    rfl (by decide) (by decide)
  cases hc
  simpa using hd

/-- C6: a matching pre-existing archive short-circuits with no network
activity and no write; a mismatching or checksum-less pre-existing archive
is discarded before fetching; download writes at most one file, and with a
declared checksum every written payload matches it. -/
theorem c6_checksum_verified_writes :
    (∀ (s c : String) (mirrors : List (String × FetchOutcome)), sha1_hexdigest c = s →
       download (some s) (some c) mirrors =
         { localFile := some c, written := [], fetched := 0, raised := none }) ∧
    (∀ s c : String, ¬ sha1_hexdigest c = s → precheck (some s) (some c) = none) ∧
    (∀ c : String, precheck none (some c) = none) ∧
    (∀ (sha1 lf : Option String) (mirrors : List (String × FetchOutcome)),
       (download sha1 lf mirrors).written.length ≤ 1) ∧
    (∀ (s : String) (lf : Option String) (mirrors : List (String × FetchOutcome)) (c : String),
       c ∈ (download (some s) lf mirrors).written → sha1_hexdigest c = s) := by
  refine ⟨?_, ?_, ?_, ?_, ?_⟩
  · intro s c mirrors h
    simp [download, precheck, h]
  · intro s c h
    simp [precheck, h]
  · intro c
    rfl
  · intro sha1 lf mirrors
    cases hpc : precheck sha1 lf with
    | some c => simp [download, hpc]
    | none =>
      cases hl : downloadLoop sha1 mirrors none with
      | success c n => simp [download, hpc, hl]
      | exhausted e => simp [download, hpc, hl]
  · intro s lf mirrors c hc
    cases hpc : precheck (some s) lf with
    | some c' => simp [download, hpc] at hc
    | none =>
      cases hl : downloadLoop (some s) mirrors none with
      | success c' n =>
        simp [download, hpc, hl] at hc
        subst hc
        exact downloadLoop_success_verified hl
      | exhausted e => simp [download, hpc, hl] at hc

/-- C6 witness: a matching cached archive short-circuits, a mismatching one
is discarded, and writes are bounded by one. -/
theorem c6_witness :
    download (some "abc") (some "abc") [("u", FetchOutcome.ok "zzz")] =
      { localFile := some "abc", written := [], fetched := 0, raised := none } ∧
    precheck (some "abc") (some "zzz") = none ∧
    (download (some "abc") none []).written.length ≤ 1 :=
  ⟨c6_checksum_verified_writes.1 "abc" "abc" [("u", FetchOutcome.ok "zzz")] rfl,
   c6_checksum_verified_writes.2.1 "abc" "zzz" (by decide),
   c6_checksum_verified_writes.2.2.2.1 (some "abc") none []⟩

/-- C1 (code bug): save_cache tests for the cache path key among the TOP
LEVEL ontology keys, where it never occurs, while load_cache correctly
tests the instruction keys, where it does occur after execute resolves the
preset; the persisted-cache write body is therefore dead code and the
cache file is never written. -/
theorem c1_cache_never_persisted :
    save_cache_writes ontologyTopLevelKeys = false ∧
    load_cache_reads instructionKeysAfterExecute = true ∧
    instructionKeysAfterExecute.contains "cache path" = true ∧
    ontologyTopLevelKeys = ["name", "instruction", "package implementation",
      "pheniqs code url prefix", "preset"] := by
  refine ⟨by decide, by decide, by decide, by decide⟩

/-- C7 (code bug): the ancestor walk behaves as specified, walking up
until a directory that exists and is writable is found and hitting the
PermissionDenied raise site when an ancestor exists but is not writable,
and the file variant hits the NoOverwrite raise site on an existing target
with overwrite false, but the exception classes PermissionDeniedError and
NoOverwriteError named at those raise sites are never defined in the
module, so Python raises NameError there instead. -/
theorem c7_prepare_errors :
    checkPermissionDir fsUnwritableUsr ["pheniqs", "usr"] =
      Except.error PrepError.permissionDenied ∧
    prepare_directory fsUnwritableUsr ["pheniqs", "usr"] =
      Except.error PrepError.permissionDenied ∧
    prepare_path fsHomeFile ["archive", "home"] false = Except.error PrepError.noOverwrite ∧
    prepare_path fsHomeFile ["archive", "home"] true = Except.ok false ∧
    checkPermissionDir fsDeepMissing ["c", "b", "a"] = Except.ok (some ["a"]) ∧
    prepare_directory fsDeepMissing ["c", "b", "a"] = Except.ok true ∧
    definedExceptionClasses.contains "PermissionDeniedError" = false ∧
    definedExceptionClasses.contains "NoOverwriteError" = false := by
  refine ⟨rfl, rfl, rfl, rfl, rfl, rfl, by decide, by decide⟩
